import Mathlib

/-!
# Verification of the scheduling core of `server.js`

Shallow embedding of the WhatsApp scheduling assistant (`src/server.js`, with the
near-duplicate variant in `src/unnamed/part_000`).  Instants are modelled as
integer milliseconds since the Unix epoch (the value of `Date.prototype.getTime`
/ `Date.now()`); the server clock is assumed to run in UTC, so the local-time
accessors `getFullYear` / `setFullYear` coincide with their UTC versions.
JavaScript `Date` arithmetic is modelled by the ECMAScript specification
functions (`DayFromYear`, `YearFromTime`, `MonthFromTime`, `DateFromTime`,
`MakeDay`), on unbounded integers (the ±8.64e15 time-value clamp is ignored;
all quantities in the program stay far inside it).  `/` and `%` on `Int` are
Lean's Euclidean operations, which agree with the floor-based operations of the
ECMAScript specification because every divisor used is positive.
-/

namespace Macla

def msPerDay : Int := 86400000
def msPerHour : Int := 3600000
def msPerWeek : Int := 604800000

/-- ECMAScript `InLeapYear`, as a 0/1 count. -/
def leapN (y : Int) : Int :=
  if (y % 4 = 0 ∧ y % 100 ≠ 0) ∨ y % 400 = 0 then 1 else 0

/-- ECMAScript `DayFromYear(y)`: day number of 1 January of year `y`. -/
def dayFromYear (y : Int) : Int :=
  365 * (y - 1970) + (y - 1969) / 4 - (y - 1901) / 100 + (y - 1601) / 400

theorem leapN_cases (y : Int) : leapN y = 0 ∨ leapN y = 1 := by
  unfold leapN; split_ifs <;> simp

theorem dayFromYear_succ (y : Int) :
    dayFromYear (y + 1) = dayFromYear y + 365 + leapN y := by
  unfold dayFromYear leapN
  split_ifs <;> omega

theorem dayFromYear_succ_ge (y : Int) :
    dayFromYear y + 365 ≤ dayFromYear (y + 1) := by
  have h1 := dayFromYear_succ y
  have h2 := leapN_cases y
  omega

theorem dayFromYear_succ_le (y : Int) :
    dayFromYear (y + 1) ≤ dayFromYear y + 366 := by
  have h1 := dayFromYear_succ y
  have h2 := leapN_cases y
  omega

/-- Upward search for `YearFromTime`: first enclosing year at or above `y`.
Meaningful when `dayFromYear y ≤ z`. -/
def yearUp (z : Int) (y : Int) : Int :=
  if dayFromYear (y + 1) ≤ z then yearUp z (y + 1) else y
termination_by (z - dayFromYear y).toNat
decreasing_by
  have h1 := dayFromYear_succ_ge y
  omega

/-- Downward search for `YearFromTime`.  Meaningful when `z < dayFromYear (y + 1)`. -/
def yearDown (z : Int) (y : Int) : Int :=
  if z < dayFromYear y then yearDown z (y - 1) else y
termination_by (dayFromYear y - z).toNat
decreasing_by
  have h1 := dayFromYear_succ_ge (y - 1)
  have h2 : y - 1 + 1 = y := by omega
  rw [h2] at h1
  omega

/-- ECMAScript `YearFromTime` on day numbers: the largest year `y` with
`DayFromYear(y) ≤ z`, computed by walking from 1970. -/
def yearFromDay (z : Int) : Int :=
  if dayFromYear 1970 ≤ z then yearUp z 1970 else yearDown z 1970

theorem yearUp_spec (z : Int) : ∀ y : Int, dayFromYear y ≤ z →
    dayFromYear (yearUp z y) ≤ z ∧ z < dayFromYear (yearUp z y + 1) := by
  intro y
  induction y using yearUp.induct z with
  | case1 y hguard ih =>
    intro _
    rw [yearUp, if_pos hguard]
    exact ih hguard
  | case2 y hguard =>
    intro hy
    rw [yearUp, if_neg hguard]
    omega

theorem yearDown_spec (z : Int) : ∀ y : Int, z < dayFromYear (y + 1) →
    dayFromYear (yearDown z y) ≤ z ∧ z < dayFromYear (yearDown z y + 1) := by
  intro y
  induction y using yearDown.induct z with
  | case1 y hguard ih =>
    intro _
    rw [yearDown, if_pos hguard]
    refine ih ?_
    rw [show y - 1 + 1 = y from by omega]
    exact hguard
  | case2 y hguard =>
    intro hy
    rw [yearDown, if_neg hguard]
    omega

/-- The defining property of `YearFromTime`: day `z` lies inside year
`yearFromDay z`. -/
theorem yearFromDay_spec (z : Int) :
    dayFromYear (yearFromDay z) ≤ z ∧ z < dayFromYear (yearFromDay z + 1) := by
  unfold yearFromDay
  split_ifs with h
  · exact yearUp_spec z 1970 h
  · refine yearDown_spec z 1970 ?_
    have h1 := dayFromYear_succ_ge 1970
    omega

/-- ECMAScript `DayWithinYear`. -/
def dayWithinYear (z : Int) : Int := z - dayFromYear (yearFromDay z)

/-- First day-of-year of month `m` (0-based, ECMAScript convention) in a year
with `L` leap days; the breakpoints of ECMAScript `MonthFromTime`. -/
def monthStart (m : Int) (L : Int) : Int :=
  if m = 0 then 0 else if m = 1 then 31 else if m = 2 then 59 + L
  else if m = 3 then 90 + L else if m = 4 then 120 + L else if m = 5 then 151 + L
  else if m = 6 then 181 + L else if m = 7 then 212 + L else if m = 8 then 243 + L
  else if m = 9 then 273 + L else if m = 10 then 304 + L else 334 + L

/-- Month (0-based) of a day-within-year `w` in a year with `L` leap days; the
case analysis of ECMAScript `MonthFromTime`. -/
def monthOf (w : Int) (L : Int) : Int :=
  if w < 31 then 0 else if w < 59 + L then 1 else if w < 90 + L then 2
  else if w < 120 + L then 3 else if w < 151 + L then 4 else if w < 181 + L then 5
  else if w < 212 + L then 6 else if w < 243 + L then 7 else if w < 273 + L then 8
  else if w < 304 + L then 9 else if w < 334 + L then 10 else 11

/-- ECMAScript `MonthFromTime` (0-based month), on day numbers. -/
def monthFromDay (z : Int) : Int :=
  monthOf (dayWithinYear z) (leapN (yearFromDay z))

/-- ECMAScript `DateFromTime` (1-based day of month), on day numbers. -/
def dateFromDay (z : Int) : Int :=
  dayWithinYear z - monthStart (monthFromDay z) (leapN (yearFromDay z)) + 1

theorem dayWithinYear_nonneg (z : Int) : 0 ≤ dayWithinYear z := by
  have h1 := yearFromDay_spec z
  unfold dayWithinYear
  omega

/-- The year/month/day decomposition is internally consistent:
`z = dayFromYear (year z) + monthStart (month z) L + date z - 1`. -/
theorem day_decomp (z : Int) :
    z = dayFromYear (yearFromDay z)
        + monthStart (monthFromDay z) (leapN (yearFromDay z))
        + dateFromDay z - 1 := by
  unfold dateFromDay dayWithinYear
  omega

set_option maxHeartbeats 1000000 in
/-- Changing only the leap count either leaves a month start unchanged
(January, February) or shifts it by exactly the leap-count difference. -/
theorem monthStart_shift (m L L' : Int) :
    monthStart m L' - monthStart m L = 0 ∨ monthStart m L' - monthStart m L = L' - L := by
  unfold monthStart
  omega

set_option maxHeartbeats 1000000 in
theorem monthStart_nonneg (m L : Int) (hL : L = 0 ∨ L = 1) : 0 ≤ monthStart m L := by
  unfold monthStart
  omega

set_option maxHeartbeats 4000000 in
theorem monthStart_monthOf_le (w L : Int) (h0 : 0 ≤ w) (_hL : L = 0 ∨ L = 1) :
    monthStart (monthOf w L) L ≤ w := by
  unfold monthOf monthStart
  omega

theorem monthStart_le_dayWithinYear (z : Int) :
    monthStart (monthFromDay z) (leapN (yearFromDay z)) ≤ dayWithinYear z := by
  have h0 := dayWithinYear_nonneg z
  have hL := leapN_cases (yearFromDay z)
  unfold monthFromDay
  exact monthStart_monthOf_le (dayWithinYear z) (leapN (yearFromDay z)) h0 hL

theorem dateFromDay_pos (z : Int) : 1 ≤ dateFromDay z := by
  have h1 := monthStart_le_dayWithinYear z
  unfold dateFromDay
  omega

/-- Models `Date.prototype.getFullYear` (UTC server clock). -/
def jsGetFullYear (t : Int) : Int := yearFromDay (t / msPerDay)

/-- Models `Date.prototype.setFullYear` (UTC server clock): ECMAScript
`MakeDate(MakeDay(y, MonthFromTime(t), DateFromTime(t)), TimeWithinDay(t))`.
Out-of-range day-of-month values (29 February moved to a non-leap year) roll
over into the next month exactly as `MakeDay` prescribes. -/
def jsSetFullYear (t : Int) (y : Int) : Int :=
  let z := t / msPerDay
  (dayFromYear y + monthStart (monthFromDay z) (leapN y) + dateFromDay z - 1) * msPerDay
    + t % msPerDay

/-- Models `Date.prototype.getDay` (UTC): 0 = Sunday … 6 = Saturday; day 0
(1 January 1970) was a Thursday. -/
def jsGetDay (t : Int) : Int := (t / msPerDay + 4) % 7

/-- Day-count core of `jsSetFullYear t (jsGetFullYear t + 1)`: moving to the
successor year advances the day count by 365 or 366 days. -/
theorem makeDay_succ_bounds (z : Int) :
    z + 365 ≤ dayFromYear (yearFromDay z + 1)
        + monthStart (monthFromDay z) (leapN (yearFromDay z + 1)) + dateFromDay z - 1 ∧
    dayFromYear (yearFromDay z + 1)
        + monthStart (monthFromDay z) (leapN (yearFromDay z + 1)) + dateFromDay z - 1
      ≤ z + 366 := by
  have hdec := day_decomp z
  have hs := dayFromYear_succ (yearFromDay z)
  have hL := leapN_cases (yearFromDay z)
  have hL' := leapN_cases (yearFromDay z + 1)
  have hms := monthStart_shift (monthFromDay z) (leapN (yearFromDay z)) (leapN (yearFromDay z + 1))
  omega

/-- Day-count core for the predecessor year: the day count moves back by 365 or
366 days. -/
theorem makeDay_pred_bounds (z : Int) :
    z - 366 ≤ dayFromYear (yearFromDay z - 1)
        + monthStart (monthFromDay z) (leapN (yearFromDay z - 1)) + dateFromDay z - 1 ∧
    dayFromYear (yearFromDay z - 1)
        + monthStart (monthFromDay z) (leapN (yearFromDay z - 1)) + dateFromDay z - 1
      ≤ z - 365 := by
  have hdec := day_decomp z
  have hs := dayFromYear_succ (yearFromDay z - 1)
  rw [show yearFromDay z - 1 + 1 = yearFromDay z from by omega] at hs
  have hL := leapN_cases (yearFromDay z - 1)
  have hL' := leapN_cases (yearFromDay z)
  have hms := monthStart_shift (monthFromDay z) (leapN (yearFromDay z)) (leapN (yearFromDay z - 1))
  omega

theorem emod_msPerDay_bounds (t : Int) : 0 ≤ t % msPerDay ∧ t % msPerDay < msPerDay := by
  constructor
  · exact Int.emod_nonneg t (by norm_num [msPerDay])
  · exact Int.emod_lt_of_pos t (by norm_num [msPerDay])

/-- Setting the year to the successor year moves the instant forward by 365 to
366 days' worth of milliseconds. -/
theorem jsSetFullYear_succ (t : Int) :
    t + 365 * msPerDay ≤ jsSetFullYear t (jsGetFullYear t + 1) ∧
    jsSetFullYear t (jsGetFullYear t + 1) ≤ t + 366 * msPerDay := by
  have hb := makeDay_succ_bounds (t / msPerDay)
  have ht := Int.ediv_add_emod t msPerDay
  have hr := emod_msPerDay_bounds t
  unfold jsSetFullYear jsGetFullYear
  dsimp only
  simp only [msPerDay] at hb ht hr ⊢
  omega

/-- Setting the year to the predecessor year moves the instant backwards by 365
to 366 days' worth of milliseconds. -/
theorem jsSetFullYear_pred (t : Int) :
    t - 366 * msPerDay ≤ jsSetFullYear t (jsGetFullYear t - 1) ∧
    jsSetFullYear t (jsGetFullYear t - 1) ≤ t - 365 * msPerDay := by
  have hb := makeDay_pred_bounds (t / msPerDay)
  have ht := Int.ediv_add_emod t msPerDay
  have hr := emod_msPerDay_bounds t
  unfold jsSetFullYear jsGetFullYear
  dsimp only
  simp only [msPerDay] at hb ht hr ⊢
  omega

/-- Setting the year to the successor of the year of another instant `n` lands
strictly after `n` (used by the creation failsafe). -/
theorem jsSetFullYear_next_year_gt (t n : Int) :
    n < jsSetFullYear t (jsGetFullYear n + 1) := by
  have hspecn := yearFromDay_spec (n / msPerDay)
  have hL' := leapN_cases (jsGetFullYear n + 1)
  have hms := monthStart_nonneg (monthFromDay (t / msPerDay)) (leapN (jsGetFullYear n + 1)) hL'
  have hdt := dateFromDay_pos (t / msPerDay)
  have htr := emod_msPerDay_bounds t
  have hnr := emod_msPerDay_bounds n
  have hn := Int.ediv_add_emod n msPerDay
  -- the new day count is at least dayFromYear (Y + 1) where Y is the year of n,
  -- and n itself lies strictly before that day's first millisecond
  have hmono : ∀ a b : Int, a + 365 ≤ b → dayFromYear a + 365 ≤ dayFromYear b := by
    intro a b hab
    have h1 := dayFromYear_succ_ge a
    have h2 : StrictMono dayFromYear := strictMono_int_of_lt_succ (fun y => by
      have := dayFromYear_succ_ge y; omega)
    have h3 : dayFromYear (a + 1) ≤ dayFromYear b := h2.monotone (by omega)
    omega
  unfold jsSetFullYear jsGetFullYear
  dsimp only
  unfold jsGetFullYear at hL' hms
  have key : dayFromYear (yearFromDay (n / msPerDay) + 1) * msPerDay
      ≤ (dayFromYear (yearFromDay (n / msPerDay) + 1)
          + monthStart (monthFromDay (t / msPerDay)) (leapN (yearFromDay (n / msPerDay) + 1))
          + dateFromDay (t / msPerDay) - 1) * msPerDay := by
    have h5 : (0 : Int) ≤ monthStart (monthFromDay (t / msPerDay))
        (leapN (yearFromDay (n / msPerDay) + 1)) := hms
    have h6 := hdt
    have hpos : (0 : Int) < msPerDay := by norm_num [msPerDay]
    nlinarith
  have key2 : n < dayFromYear (yearFromDay (n / msPerDay) + 1) * msPerDay := by
    simp only [msPerDay] at hn hnr hspecn ⊢
    omega
  have htr2 := htr
  simp only [msPerDay] at key key2 htr2 ⊢
  omega

/-! ## The text signals of `normalizeToFuture` (`server.js:163-164`)

`YEAR_RE = /\b20\d{2}\b/` and
`WEEKDAY_RE = /(lunes|martes|mi[eé]rcoles|jueves|viernes|s[áa]bado|domingo)/i`,
modelled as decidable string scans.  JavaScript `\b`/`\w` are ASCII-only
(`[A-Za-z0-9_]`); the `/i` flag is modelled by folding upper-case letters
(including the accented capitals appearing in the alternatives) to lower case.
-/

def isWordChar (c : Char) : Bool := c.isAlphanum || c == '_'

/-- Does `\b20\d{2}\b` match starting at the head of this suffix (the leading
word boundary is checked by the caller)? -/
def yearTokenAt : List Char → Bool
  | '2' :: '0' :: a :: b :: rest =>
      a.isDigit && b.isDigit &&
        (match rest with
         | [] => true
         | c :: _ => !isWordChar c)
  | _ => false

/-- Scan all match positions; `prevWord` records whether the previous character
was a word character (so that a position starts at a word boundary). -/
def yearScan (prevWord : Bool) : List Char → Bool
  | [] => false
  | c :: rest => (!prevWord && yearTokenAt (c :: rest)) || yearScan (isWordChar c) rest

/-- Models `YEAR_RE.test(originalText)`. -/
def yearRe (s : String) : Bool := yearScan false s.data

/-- Case folding for the `/i` flag on the weekday alternation. -/
def foldChar (c : Char) : Char :=
  if c = 'É' then 'é' else if c = 'Á' then 'á' else c.toLower

def headMatches : List Char → List Char → Bool
  | [], _ => true
  | _ :: _, [] => false
  | p :: ps, c :: cs => p == c && headMatches ps cs

def containsSeq (pat : List Char) : List Char → Bool
  | [] => headMatches pat []
  | c :: cs => headMatches pat (c :: cs) || containsSeq pat cs

/-- The weekday alternatives of `WEEKDAY_RE`, with the JavaScript `getDay`
number of the weekday each one names (0 = Sunday … 6 = Saturday). -/
def weekdayPatterns : List (List Char × Int) :=
  [("lunes".data, 1), ("martes".data, 2), ("miercoles".data, 3), ("miércoles".data, 3),
   ("jueves".data, 4), ("viernes".data, 5), ("sabado".data, 6), ("sábado".data, 6),
   ("domingo".data, 0)]

/-- Models `WEEKDAY_RE.test(originalText)`. -/
def weekdayRe (s : String) : Bool :=
  weekdayPatterns.any (fun p => containsSeq p.1 (s.data.map foldChar))

/-- The text mentions the weekday whose JavaScript `getDay` number is `d`. -/
def textMentionsDay (s : String) (d : Int) : Bool :=
  weekdayPatterns.any (fun p => p.2 == d && containsSeq p.1 (s.data.map foldChar))

/-! ## `normalizeToFuture` (`server.js:166-193`) -/

/-- The year-subtraction loop (`server.js:175-177`):
`while (d - now > 370 * 24 * 3600 * 1000) d.setFullYear(d.getFullYear() - 1)`. -/
def subYearsLoop (now : Int) (d : Int) : Int :=
  if 370 * msPerDay < d - now then subYearsLoop now (jsSetFullYear d (jsGetFullYear d - 1))
  else d
termination_by (d - now).toNat
decreasing_by
  have h := jsSetFullYear_pred d
  simp only [msPerDay] at *
  omega

/-- The weekday-preserving loop (`server.js:182-184`):
`while (d <= now) d = new Date(d.getTime() + 7 * 24 * 3600 * 1000)`. -/
def addWeeksLoop (now : Int) (d : Int) : Int :=
  if d ≤ now then addWeeksLoop now (d + msPerWeek) else d
termination_by (now + 1 - d).toNat
decreasing_by
  simp only [msPerWeek] at *
  omega

/-- The year-advancing loop (`server.js:186-188`):
`while (d <= now) d.setFullYear(d.getFullYear() + 1)`. -/
def addYearsLoop (now : Int) (d : Int) : Int :=
  if d ≤ now then addYearsLoop now (jsSetFullYear d (jsGetFullYear d + 1)) else d
termination_by (now + 1 - d).toNat
decreasing_by
  have h := jsSetFullYear_succ d
  simp only [msPerDay] at *
  omega

/-- Models `normalizeToFuture(startISO, originalText)` (`server.js:166-193`).  The
`startISO` argument is the parsed time value of `new Date(startISO)`: `none`
models an invalid date (`isNaN(d.getTime())`), in which case the function
returns `null`.  `now` is the instant sampled by `new Date()` at the call.  The
returned instant is what `d.toISOString()` renders. -/
def normalizeToFuture (now : Int) (start? : Option Int) (originalText : String) : Option Int :=
  match start? with
  | none => none
  | some d0 =>
    let userPutYear := yearRe originalText
    let mentionsWeekday := weekdayRe originalText
    let d1 := if userPutYear then d0 else subYearsLoop now d0
    if d1 ≤ now then
      if mentionsWeekday then some (addWeeksLoop now d1) else some (addYearsLoop now d1)
    else some d1

theorem subYearsLoop_le (now : Int) : ∀ d : Int, subYearsLoop now d - now ≤ 370 * msPerDay := by
  intro d
  induction d using subYearsLoop.induct now with
  | case1 d hguard ih =>
    rw [subYearsLoop, if_pos hguard]
    exact ih
  | case2 d hguard =>
    rw [subYearsLoop, if_neg hguard]
    omega

theorem subYearsLoop_exit (now d : Int) (h : d - now ≤ 370 * msPerDay) :
    subYearsLoop now d = d := by
  rw [subYearsLoop, if_neg (by omega)]

theorem subYearsLoop_step (now d : Int) (h : 370 * msPerDay < d - now) :
    subYearsLoop now d = subYearsLoop now (jsSetFullYear d (jsGetFullYear d - 1)) := by
  conv_lhs => rw [subYearsLoop]
  rw [if_pos h]

theorem addWeeksLoop_gt (now : Int) : ∀ d : Int, now < addWeeksLoop now d := by
  intro d
  induction d using addWeeksLoop.induct now with
  | case1 d hguard ih =>
    rw [addWeeksLoop, if_pos hguard]
    exact ih
  | case2 d hguard =>
    rw [addWeeksLoop, if_neg hguard]
    omega

theorem addWeeksLoop_le (now : Int) : ∀ d : Int, d ≤ now →
    addWeeksLoop now d ≤ now + msPerWeek := by
  intro d
  induction d using addWeeksLoop.induct now with
  | case1 d hguard ih =>
    intro _
    rw [addWeeksLoop, if_pos hguard]
    rcases le_or_lt (d + msPerWeek) now with h2 | h2
    · exact ih h2
    · rw [addWeeksLoop, if_neg (by omega)]
      omega
  | case2 d hguard =>
    intro h
    omega

theorem addWeeksLoop_sub_mod (now : Int) : ∀ d : Int,
    (addWeeksLoop now d - d) % msPerWeek = 0 := by
  intro d
  induction d using addWeeksLoop.induct now with
  | case1 d hguard ih =>
    rw [addWeeksLoop, if_pos hguard]
    simp only [msPerWeek] at *
    omega
  | case2 d hguard =>
    rw [addWeeksLoop, if_neg hguard]
    simp only [msPerWeek]
    omega

theorem addYearsLoop_gt (now : Int) : ∀ d : Int, now < addYearsLoop now d := by
  intro d
  induction d using addYearsLoop.induct now with
  | case1 d hguard ih =>
    rw [addYearsLoop, if_pos hguard]
    exact ih
  | case2 d hguard =>
    rw [addYearsLoop, if_neg hguard]
    omega

theorem addYearsLoop_le (now : Int) : ∀ d : Int, d ≤ now →
    addYearsLoop now d ≤ now + 366 * msPerDay := by
  intro d
  induction d using addYearsLoop.induct now with
  | case1 d hguard ih =>
    intro _
    rcases le_or_lt (jsSetFullYear d (jsGetFullYear d + 1)) now with h2 | h2
    · rw [addYearsLoop, if_pos hguard]
      exact ih h2
    · rw [addYearsLoop, if_pos hguard, addYearsLoop, if_neg (by omega)]
      have h3 := jsSetFullYear_succ d
      omega
  | case2 d hguard =>
    intro h
    omega

/-- Core of claim C1: every successful normalization is strictly in the
future of the `now` sampled at the call. -/
theorem normalizeToFuture_gt_now (now s : Int) (text : String) (v : Int)
    (h : normalizeToFuture now (some s) text = some v) : now < v := by
  unfold normalizeToFuture at h
  dsimp only at h
  split_ifs at h <;> (injection h with h; subst h) <;>
    first
      | exact addWeeksLoop_gt now _
      | exact addYearsLoop_gt now _
      | omega

/-! ## `createCalendarEvent` (`server.js:196-233`) -/

/-- The start/end instants actually sent to the calendar collaborator by
`createCalendarEvent`.  `now` is the instant sampled by `Date.now()` / `new
Date()` in the failsafe check; `endMs?` is the parsed `endISO` (`none` when
absent).  The failsafe (`server.js:206-210`) fires when the start is strictly
before `now`: it sets the start's year to the CURRENT year plus one and
recomputes the end as start + 60 minutes. -/
def createCalendarEventTimes (now : Int) (startMs : Int) (endMs? : Option Int) :
    Int × Int :=
  if startMs < now then
    let s2 := jsSetFullYear startMs (jsGetFullYear now + 1)
    (s2, s2 + msPerHour)
  else
    (startMs, endMs?.getD (startMs + msPerHour))

/-- The start/end computation of the `calendar_event` webhook branch
(`server.js:481-499`): normalize the start against the message text, translate
any supplied end by the same delta the start moved, then hand both to
`createCalendarEvent`.  Returns `none` when normalization fails
(`throw new Error("Fecha inválida")`). -/
def calendarBranchTimes (now : Int) (rawStart : Int) (rawEnd? : Option Int)
    (body : String) : Option (Int × Int) :=
  match normalizeToFuture now (some rawStart) body with
  | none => none
  | some fixedStart =>
    let fixedEnd? := rawEnd?.map (fun e => e + (fixedStart - rawStart))
    some (createCalendarEventTimes now fixedStart fixedEnd?)

/-! ## The store, the webhook and the dispatcher -/

/-- The JSON intent produced by `classifyIntent` (`server.js:239-280`). -/
structure Intent where
  intent : String
  summary : String
  description : String
  startISO : String
  endISO : String
  attendees : List String
deriving DecidableEq, Repr

/-- A persisted reminder (`db.reminders` entry, `server.js:529-535`). -/
structure Reminder where
  id : String
  identity : String
  text : String
  dueAt : Int
  done : Bool
deriving DecidableEq, Repr

/-- The persisted store `db = { users, reminders }` (`server.js:30`); user
records carry no data beyond their key (`prefs` is an empty placeholder). -/
structure DB where
  users : List String
  reminders : List Reminder
deriving DecidableEq, Repr

/-- The reminder object built by the `local_reminder` branch
(`server.js:529-535`): `id` is `` `r_${Date.now()}` ``, the due instant is 30
minutes after creation, `done` starts false. -/
def mkLocalReminder (sender text0 : String) (nowMs : Int) : Reminder :=
  { id := "r_" ++ toString nowMs
    identity := sender
    text := text0
    dueAt := nowMs + 30 * 60 * 1000
    done := false }

/-- Models `/^resumen/i.test(body)` (`server.js:471`). -/
def resumenRe (s : String) : Bool := headMatches "resumen".data (s.data.map foldChar)

inductive WebhookBranch
  | digest
  | calendarEvent
  | localReminder
  | chat
deriving DecidableEq, Repr

/-- The store mutations and branching of `POST /webhook/whatsapp` after body
extraction (`server.js:464-547`; same structure in `part_000:158-204`):
register the user, answer the digest command, then dispatch on the classified
intent.  `classify` models the `classifyIntent` collaborator; replies, calendar
calls and TTS are external effects not reflected in the store. -/
def webhookStep (classify : String → Intent) (nowMs : Int) (sender body : String)
    (db : DB) : DB × WebhookBranch :=
  let db1 : DB :=
    { db with users := if db.users.contains sender then db.users else db.users ++ [sender] }
  if resumenRe body then (db1, .digest)
  else
    let intent := classify body
    if intent.intent = "calendar_event" ∧ intent.startISO ≠ "" then (db1, .calendarEvent)
    else if intent.intent = "local_reminder" ∧ intent.startISO = "" then
      ({ db1 with reminders := db1.reminders ++
          [mkLocalReminder sender (if intent.summary ≠ "" then intent.summary else body) nowMs] },
        .localReminder)
    else (db1, .chat)

/-- Models `sendDirectWA` (`server.js:113-135`): its whole body is wrapped in
`try/catch`, so the call never throws; the messaging collaborator outcome
(`ok`) decides only whether a message is actually delivered.  Returns the
delivered message, if any. -/
def sendDirectWA (ok : String → String → Bool) (toWa body : String) :
    Option (String × String) :=
  if ok toWa body then some (toWa, body) else none

def reminderMsg (r : Reminder) : String := "Recordatorio: " ++ r.text

/-- The dispatcher's due test `!r.done && r.dueAt <= now` (`server.js:581`). -/
def isDue (now : Int) (r : Reminder) : Bool := !r.done && decide (r.dueAt ≤ now)

structure TickResult where
  reminders : List Reminder
  sent : List (String × String)
  saved : Bool
deriving DecidableEq, Repr

/-- One sweep of the reminder dispatcher (`server.js:579-593`).  Because
`sendDirectWA` cannot throw, the `try/catch` around it never fires and
`r.done = true` runs for every due reminder, delivered or not; the store is
persisted once when the batch was non-empty.  The `part_000:207-217` variant
behaves identically: there the messaging call can throw, but the per-reminder
`catch` only logs and `r.done = true` sits after it. -/
def dispatcherTick (ok : String → String → Bool) (now : Int) (rs : List Reminder) :
    TickResult :=
  let due := rs.filter (isDue now)
  { reminders := rs.map (fun r => if isDue now r then { r with done := true } else r)
    sent := (due.filter (fun r => (sendDirectWA ok r.identity (reminderMsg r)).isSome)).map
      (fun r => (r.identity, reminderMsg r))
    saved := due.length != 0 }

/-! ## `getDayDigest` (`server.js:308-365`) -/

/-- A calendar item as consumed by the digest: the parsed
`e.start?.dateTime || e.start?.date` (`none` renders "(sin hora)") and the
summary. -/
structure CalEvent where
  startMs : Option Int
  summary : String
deriving DecidableEq, Repr

/-- The local-reminders section of the digest (`server.js:348-362`). -/
def remsSection (fmtTime : Int → String) (identity : String) (now : Int)
    (reminders : List Reminder) : String :=
  let in24h := now + 24 * msPerHour
  let localRems := reminders.filter (fun r =>
    r.identity == identity && !r.done && decide (r.dueAt ≤ in24h))
  if localRems.length != 0 then
    String.intercalate "\n" (localRems.map (fun r => fmtTime r.dueAt ++ " - " ++ r.text))
  else "(Sin recordatorios locales)"

/-- Models `getDayDigest(identity)` (`server.js:308-365`).  `cal` is the calendar
collaborator outcome (`.error` models `calendar.events.list` throwing);
`fmtWhen` / `fmtTime` model the locale-dependent `toLocaleString` /
`toLocaleTimeString` renderings (a presentation detail of the environment). -/
def getDayDigest (fmtWhen : Int → String) (fmtTime : Int → String)
    (cal : Except Unit (List CalEvent)) (identity : String) (now : Int)
    (reminders : List Reminder) : String :=
  let eventsText :=
    match cal with
    | .error _ => "(No se pudo leer Calendar)"
    | .ok items =>
      if items.length != 0 then
        String.intercalate "\n" (items.map (fun e =>
          (match e.startMs with
           | some t => fmtWhen t
           | none => "(sin hora)") ++ " - " ++
          (if e.summary ≠ "" then e.summary else "(Sin título)")))
      else "(Sin eventos en Google Calendar)"
  "RESUMEN DEL DÍA\n\nEventos próximas 24h:\n" ++ eventsText ++
    "\n\nRecordatorios locales:\n" ++ remsSection fmtTime identity now reminders

/-! ## Further facts about `normalizeToFuture` -/

theorem addWeeksLoop_exit (now d : Int) (h : now < d) : addWeeksLoop now d = d := by
  rw [addWeeksLoop, if_neg (by omega)]

theorem addYearsLoop_exit (now d : Int) (h : now < d) : addYearsLoop now d = d := by
  rw [addYearsLoop, if_neg (by omega)]

/-- Core of claim C6: without an explicit year token the result stays within
370 days of `now`. -/
theorem normalizeToFuture_within (now s : Int) (text : String) (v : Int)
    (hyear : yearRe text = false)
    (h : normalizeToFuture now (some s) text = some v) :
    v - now ≤ 370 * msPerDay := by
  unfold normalizeToFuture at h
  dsimp only at h
  have e1 : (if yearRe text = true then s else subYearsLoop now s) = subYearsLoop now s := by
    rw [hyear]
    exact if_neg (by simp)
  rw [e1] at h
  have hle := subYearsLoop_le now s
  split_ifs at h with h1 h2 <;> (injection h with h; subst h)
  · have h3 := addWeeksLoop_le now (subYearsLoop now s) h1
    simp only [msPerWeek, msPerDay] at *
    omega
  · have h3 := addYearsLoop_le now (subYearsLoop now s) h1
    simp only [msPerDay] at *
    omega
  · simp only [msPerDay] at *
    omega

/-- Two instants a whole number of weeks apart fall on the same JavaScript
weekday. -/
theorem jsGetDay_eq_of_week_mod (a b : Int) (h : (b - a) % msPerWeek = 0) :
    jsGetDay b = jsGetDay a := by
  unfold jsGetDay
  simp only [msPerWeek, msPerDay] at *
  omega

/-- Core of the corrected claim C4: when the text carries an explicit year
token (so the year-correction loop is skipped) and mentions a weekday, the
result is the raw date advanced by a whole number of weeks, hence falls on the
raw date's weekday — not necessarily the mentioned one. -/
theorem normalizeToFuture_weekday_preserved (now s : Int) (text : String) (v : Int)
    (hyear : yearRe text = true) (hweek : weekdayRe text = true)
    (h : normalizeToFuture now (some s) text = some v) :
    (v - s) % msPerWeek = 0 ∧ jsGetDay v = jsGetDay s := by
  unfold normalizeToFuture at h
  dsimp only at h
  rw [hyear, hweek, if_pos rfl] at h
  have hmod : (v - s) % msPerWeek = 0 := by
    by_cases h1 : s ≤ now
    · rw [if_pos h1, if_pos rfl] at h
      injection h with h
      subst h
      exact addWeeksLoop_sub_mod now s
    · rw [if_neg h1] at h
      injection h with h
      subst h
      simp only [sub_self]
      exact Int.zero_emod _
  exact ⟨hmod, jsGetDay_eq_of_week_mod s v hmod⟩

/-! ## Injectivity of the decimal rendering used by reminder ids -/

theorem digitChar_inj (a b : Nat) (ha : a < 10) (hb : b < 10)
    (h : Nat.digitChar a = Nat.digitChar b) : a = b := by
  interval_cases a <;> interval_cases b <;> revert h <;> decide

theorem map_digitChar_inj : ∀ (l1 l2 : List Nat), (∀ x ∈ l1, x < 10) → (∀ x ∈ l2, x < 10) →
    l1.map Nat.digitChar = l2.map Nat.digitChar → l1 = l2
  | [], [], _, _, _ => rfl
  | [], _ :: _, _, _, h => by simp at h
  | _ :: _, [], _, _, h => by simp at h
  | a :: l1, b :: l2, h1, h2, h => by
    simp only [List.map_cons, List.cons.injEq] at h
    have ha := h1 a (by simp)
    have hb := h2 b (by simp)
    have hhead := digitChar_inj a b ha hb h.1
    have htail := map_digitChar_inj l1 l2 (fun x hx => h1 x (by simp [hx]))
      (fun x hx => h2 x (by simp [hx])) h.2
    simp [hhead, htail]

theorem toDigitsCore_eq_digits (n : Nat) : ∀ (f : Nat) (acc : List Char), 0 < n → n < f →
    Nat.toDigitsCore 10 f n acc = ((Nat.digits 10 n).map Nat.digitChar).reverse ++ acc := by
  induction n using Nat.strong_induction_on with
  | _ n ih =>
    intro f acc hn hf
    match f with
    | 0 => omega
    | f + 1 =>
      simp only [Nat.toDigitsCore]
      by_cases h10 : n / 10 = 0
      · rw [if_pos h10]
        have hlt : n < 10 := by omega
        rw [Nat.digits_def' (b := 10) (by norm_num) hn, h10, Nat.digits_zero]
        simp [Nat.mod_eq_of_lt hlt]
      · rw [if_neg h10]
        have h1 : 0 < n / 10 := Nat.pos_of_ne_zero h10
        have h2 : n / 10 < n := Nat.div_lt_self hn (by norm_num)
        have h3 : n / 10 < f := by omega
        rw [ih (n / 10) h2 f (Nat.digitChar (n % 10) :: acc) h1 h3]
        rw [Nat.digits_def' (b := 10) (by norm_num) hn]
        simp

theorem natRepr_eq_digits (n : Nat) (hn : 0 < n) :
    Nat.repr n = (((Nat.digits 10 n).map Nat.digitChar).reverse).asString := by
  unfold Nat.repr Nat.toDigits
  rw [toDigitsCore_eq_digits n (n + 1) [] hn (by omega)]
  simp

theorem natRepr_inj (m n : Nat) (h : Nat.repr m = Nat.repr n) : m = n := by
  have key : ∀ k : Nat, 0 < k → Nat.repr 0 = Nat.repr k → False := by
    intro k hk hrepr
    rw [natRepr_eq_digits k hk] at hrepr
    have hd : ['0'] = ((Nat.digits 10 k).map Nat.digitChar).reverse := congrArg String.data hrepr
    have hmap : (Nat.digits 10 k).map Nat.digitChar = ['0'] := by
      have h2 := congrArg List.reverse hd
      simpa using h2.symm
    have hdig : Nat.digits 10 k = [0] := by
      refine map_digitChar_inj _ _ (fun x hx => Nat.digits_lt_base (by norm_num) hx)
        (by simp) ?_
      simpa using hmap
    have h5 := congrArg (Nat.ofDigits 10) hdig
    rw [Nat.ofDigits_digits] at h5
    simp [Nat.ofDigits] at h5
    omega
  rcases Nat.eq_zero_or_pos m with hm | hm <;> rcases Nat.eq_zero_or_pos n with hn | hn
  · omega
  · exact absurd (hm ▸ h) (fun hh => key n hn hh)
  · exact absurd (hn ▸ h.symm) (fun hh => key m hm hh)
  · rw [natRepr_eq_digits m hm, natRepr_eq_digits n hn] at h
    have hd : ((Nat.digits 10 m).map Nat.digitChar).reverse
        = ((Nat.digits 10 n).map Nat.digitChar).reverse := congrArg String.data h
    have h2 := List.reverse_injective hd
    have h3 := map_digitChar_inj _ _ (fun x hx => Nat.digits_lt_base (by norm_num) hx)
      (fun x hx => Nat.digits_lt_base (by norm_num) hx) h2
    have h4 := congrArg (Nat.ofDigits 10) h3
    rwa [Nat.ofDigits_digits, Nat.ofDigits_digits] at h4

/-- The rendering `toString` is injective on nonnegative integers (epoch-millisecond
instants are nonnegative). -/
theorem intToString_nonneg_inj (t1 t2 : Int) (h1 : 0 ≤ t1) (h2 : 0 ≤ t2)
    (h : toString t1 = toString t2) : t1 = t2 := by
  obtain ⟨n1, rfl⟩ := Int.eq_ofNat_of_zero_le h1
  obtain ⟨n2, rfl⟩ := Int.eq_ofNat_of_zero_le h2
  have h' : Nat.repr n1 = Nat.repr n2 := h
  rw [natRepr_inj n1 n2 h']

/-! ## Remaining helper lemmas for the claims -/

theorem dayFromYear_strictMono : StrictMono dayFromYear :=
  strictMono_int_of_lt_succ (fun y => by have h := dayFromYear_succ_ge y; omega)

/-- The search `yearFromDay` lands in the unique year whose day range contains `z`. -/
theorem yearFromDay_eq_of (z y : Int) (h1 : dayFromYear y ≤ z) (h2 : z < dayFromYear (y + 1)) :
    yearFromDay z = y := by
  have hspec := yearFromDay_spec z
  by_contra hne
  rcases lt_or_gt_of_ne hne with hlt | hgt
  · have h3 : dayFromYear (yearFromDay z + 1) ≤ dayFromYear y :=
      dayFromYear_strictMono.monotone (by omega)
    omega
  · have h3 : dayFromYear (y + 1) ≤ dayFromYear (yearFromDay z) :=
      dayFromYear_strictMono.monotone (by omega)
    omega

theorem reminderMsg_inj (x y : Reminder) (h : reminderMsg x = reminderMsg y) :
    x.text = y.text := by
  unfold reminderMsg at h
  have hd := congrArg String.data h
  simp only [String.data_append] at hd
  exact String.ext (List.append_cancel_left hd)

/-- Evaluation helper: when the year-corrected date is already strictly after
`now`, `normalizeToFuture` returns it unchanged. -/
theorem normalizeToFuture_eval (now d0 : Int) (text : String) (d1 : Int)
    (hd1 : (if yearRe text = true then d0 else subYearsLoop now d0) = d1)
    (hgt : now < d1) :
    normalizeToFuture now (some d0) text = some d1 := by
  unfold normalizeToFuture
  dsimp only
  rw [hd1, if_neg (by omega)]

/-! ## Claim C1 -/

/-- C1: for every `rawISO` string that parses to a valid date and every
`originalText`, `normalizeToFuture` returns an instant strictly greater than
the `now` sampled at the call. -/
theorem claim_C1_normalize_strictly_future (now s : Int) (text : String) (v : Int)
    (h : normalizeToFuture now (some s) text = some v) : now < v :=
  normalizeToFuture_gt_now now s text v h

theorem claim_C1_witness :
    normalizeToFuture 0 (some 345600000) "reunión" = some 345600000 ∧ (0 : Int) < 345600000 := by
  have heval : normalizeToFuture 0 (some 345600000) "reunión" = some 345600000 := by
    refine normalizeToFuture_eval 0 345600000 "reunión" 345600000 ?_ (by decide)
    rw [show yearRe "reunión" = false from by decide, if_neg (by simp)]
    exact subYearsLoop_exit 0 345600000 (by decide)
  exact ⟨heval, claim_C1_normalize_strictly_future 0 345600000 "reunión" 345600000 heval⟩

/-! ## Claim C4 -/

/-- C4 as stated is false: `normalizeToFuture` never inspects WHICH weekday the
text mentions.  Here the text mentions "jueves" (Thursday, JavaScript day 4)
but the raw date 1970-01-05 (a Monday, day 1) is already in the future, so it
is returned unchanged and falls on a Monday. -/
theorem claim_C4_counterexample :
    textMentionsDay "jueves" 4 = true ∧
    normalizeToFuture 0 (some 345600000) "jueves" = some 345600000 ∧
    jsGetDay 345600000 = 1 ∧ (1 : Int) ≠ 4 := by
  refine ⟨by decide, ?_, by decide, by decide⟩
  refine normalizeToFuture_eval 0 345600000 "jueves" 345600000 ?_ (by decide)
  rw [show yearRe "jueves" = false from by decide, if_neg (by simp)]
  exact subYearsLoop_exit 0 345600000 (by decide)

/-- C4 amended: when the text mentions a weekday AND carries an explicit
4-digit year token (so the year-correction loop is skipped), the result falls
on the same weekday as the PARSED RAW date — the 7-day advancing loop preserves
that weekday; nothing ties it to the weekday named in the text. -/
theorem claim_C4_weekday_of_raw_preserved (now s : Int) (text : String) (v : Int)
    (hyear : yearRe text = true) (hweek : weekdayRe text = true)
    (h : normalizeToFuture now (some s) text = some v) :
    jsGetDay v = jsGetDay s :=
  (normalizeToFuture_weekday_preserved now s text v hyear hweek h).2

theorem claim_C4_witness :
    yearRe "jueves 2026" = true ∧ weekdayRe "jueves 2026" = true ∧
    normalizeToFuture 0 (some 345600000) "jueves 2026" = some 345600000 ∧
    jsGetDay 345600000 = jsGetDay 345600000 := by
  have hyr : yearRe "jueves 2026" = true := by decide
  have hwr : weekdayRe "jueves 2026" = true := by decide
  have heval : normalizeToFuture 0 (some 345600000) "jueves 2026" = some 345600000 := by
    refine normalizeToFuture_eval 0 345600000 "jueves 2026" 345600000 ?_ (by decide)
    rw [hyr, if_pos rfl]
  exact ⟨hyr, hwr, heval,
    claim_C4_weekday_of_raw_preserved 0 345600000 "jueves 2026" 345600000 hyr hwr heval⟩

/-! ## Claim C6 -/

/-- C6: when the text has no 4-digit year token and the raw date is more than
370 days ahead of `now`, the result lies within 370 days of `now`. -/
theorem claim_C6_no_year_within_370_days (now s : Int) (text : String) (v : Int)
    (hyear : yearRe text = false) (_hfar : 370 * msPerDay < s - now)
    (h : normalizeToFuture now (some s) text = some v) :
    v - now ≤ 370 * msPerDay :=
  normalizeToFuture_within now s text v hyear h

theorem claim_C6_witness :
    yearRe "reunión" = false ∧ 370 * msPerDay < 34560000000 - 0 ∧
    normalizeToFuture 0 (some 34560000000) "reunión" = some 3024000000 ∧
    3024000000 - 0 ≤ 370 * msPerDay := by
  have hyr : yearRe "reunión" = false := by decide
  have e0 : (34560000000 : Int) / msPerDay = 400 := by decide
  have e1 : yearFromDay 400 = 1971 := yearFromDay_eq_of 400 1971 (by decide) (by decide)
  have e2 : jsGetFullYear 34560000000 = 1971 := by unfold jsGetFullYear; rw [e0, e1]
  have e3 : dayWithinYear 400 = 35 := by unfold dayWithinYear; rw [e1]; decide
  have e4 : monthFromDay 400 = 1 := by unfold monthFromDay; rw [e3, e1]; decide
  have e5 : dateFromDay 400 = 5 := by unfold dateFromDay; rw [e3, e4, e1]; decide
  have e6 : jsSetFullYear 34560000000 1970 = 3024000000 := by
    unfold jsSetFullYear
    dsimp only
    rw [e0, e4, e5]
    decide
  have heval : normalizeToFuture 0 (some 34560000000) "reunión" = some 3024000000 := by
    refine normalizeToFuture_eval 0 34560000000 "reunión" 3024000000 ?_ (by decide)
    rw [hyr, if_neg (by simp)]
    rw [subYearsLoop_step 0 34560000000 (by decide)]
    rw [e2, show (1971 : Int) - 1 = 1970 from by norm_num, e6]
    exact subYearsLoop_exit 0 3024000000 (by decide)
  exact ⟨hyr, by decide, heval,
    claim_C6_no_year_within_370_days 0 34560000000 "reunión" 3024000000 hyr (by decide) heval⟩

/-! ## Claim C5 -/

/-- C5 as stated is false in two respects.  With `now` = 2026-01-01T00:00Z and
a start of 2020-03-15T10:00Z (strictly in the past), the failsafe sets the
start's YEAR to current year + 1, landing on 2027-03-15T10:00Z — a push of
seven years, not "exactly one year" (the push exceeds 366 days).  And with the
start exactly equal to `now` ("not after now" in the claim's wording), the
strict `<` guard does not fire, so the start is not pushed at all. -/
theorem claim_C5_counterexample :
    (1584266400000 : Int) < 1767225600000 ∧
    (createCalendarEventTimes 1767225600000 1584266400000 none).1 = 1805104800000 ∧
    jsGetFullYear 1584266400000 = 2020 ∧
    jsGetFullYear 1805104800000 = 2027 ∧
    366 * msPerDay < (1805104800000 : Int) - 1584266400000 ∧
    (createCalendarEventTimes 1767225600000 1767225600000 none).1 = 1767225600000 := by
  have en0 : (1767225600000 : Int) / msPerDay = 20454 := by decide
  have en1 : yearFromDay 20454 = 2026 := yearFromDay_eq_of 20454 2026 (by decide) (by decide)
  have es0 : (1584266400000 : Int) / msPerDay = 18336 := by decide
  have es1 : yearFromDay 18336 = 2020 := yearFromDay_eq_of 18336 2020 (by decide) (by decide)
  have es3 : dayWithinYear 18336 = 74 := by unfold dayWithinYear; rw [es1]; decide
  have es4 : monthFromDay 18336 = 2 := by unfold monthFromDay; rw [es3, es1]; decide
  have es5 : dateFromDay 18336 = 15 := by unfold dateFromDay; rw [es3, es4, es1]; decide
  have es6 : jsSetFullYear 1584266400000 2027 = 1805104800000 := by
    unfold jsSetFullYear
    dsimp only
    rw [es0, es4, es5]
    decide
  have er0 : (1805104800000 : Int) / msPerDay = 20892 := by decide
  have er1 : yearFromDay 20892 = 2027 := yearFromDay_eq_of 20892 2027 (by decide) (by decide)
  refine ⟨by decide, ?_, ?_, ?_, by decide, ?_⟩
  · unfold createCalendarEventTimes
    rw [if_pos (by decide : (1584266400000 : Int) < 1767225600000)]
    dsimp only
    unfold jsGetFullYear
    rw [en0, en1, show (2026 : Int) + 1 = 2027 from by norm_num, es6]
  · unfold jsGetFullYear
    rw [es0, es1]
  · unfold jsGetFullYear
    rw [er0, er1]
  · unfold createCalendarEventTimes
    rw [if_neg (by decide : ¬(1767225600000 : Int) < 1767225600000)]

/-- C5 amended: when the start handed to `createCalendarEvent` is STRICTLY
before `now`, the failsafe replaces the start's year by the CURRENT year plus
one (keeping month, day and time of day — a push of exactly one year only when
the start already lies in the current year), recomputes the end as the new
start plus 60 minutes discarding any supplied end, and the resulting start is
strictly in the future.  A start exactly equal to `now` is left untouched. -/
theorem claim_C5_failsafe_current_year_plus_one (now startMs : Int) (endMs? : Option Int)
    (h : startMs < now) :
    (createCalendarEventTimes now startMs endMs?).1
        = jsSetFullYear startMs (jsGetFullYear now + 1) ∧
    (createCalendarEventTimes now startMs endMs?).2
        = (createCalendarEventTimes now startMs endMs?).1 + msPerHour ∧
    now < (createCalendarEventTimes now startMs endMs?).1 := by
  unfold createCalendarEventTimes
  rw [if_pos h]
  exact ⟨rfl, rfl, jsSetFullYear_next_year_gt startMs now⟩

theorem claim_C5_witness :
    (1584266400000 : Int) < 1767225600000 ∧
    (createCalendarEventTimes 1767225600000 1584266400000 none).1
        = jsSetFullYear 1584266400000 (jsGetFullYear 1767225600000 + 1) ∧
    (createCalendarEventTimes 1767225600000 1584266400000 none).2
        = (createCalendarEventTimes 1767225600000 1584266400000 none).1 + msPerHour ∧
    (1767225600000 : Int) < (createCalendarEventTimes 1767225600000 1584266400000 none).1 := by
  have h := claim_C5_failsafe_current_year_plus_one 1767225600000 1584266400000 none
    (by decide)
  exact ⟨by decide, h.1, h.2.1, h.2.2⟩

/-! ## Claim C7 -/

/-- C7: when `intent.endISO` is present and the creation failsafe does not
trigger, the end sent to the calendar is the original end shifted by the same
delta as the start was shifted during normalization, so the event duration
equals the original `endISO − startISO`.  (The failsafe in fact never triggers
here: the normalized start is strictly after `now`.) -/
theorem claim_C7_end_shifted_duration_preserved (now rawStart rawEnd : Int) (body : String)
    (s2 e2 : Int) (h : calendarBranchTimes now rawStart (some rawEnd) body = some (s2, e2)) :
    ¬ s2 < now ∧ e2 = rawEnd + (s2 - rawStart) ∧ e2 - s2 = rawEnd - rawStart := by
  unfold calendarBranchTimes at h
  cases hn : normalizeToFuture now (some rawStart) body with
  | none => rw [hn] at h; exact absurd h (by simp)
  | some fixedStart =>
    rw [hn] at h
    simp only [Option.map_some'] at h
    have hgt := normalizeToFuture_gt_now now rawStart body fixedStart hn
    unfold createCalendarEventTimes at h
    rw [if_neg (by omega)] at h
    simp only [Option.getD_some] at h
    injection h with h
    have h1 : s2 = fixedStart := (congrArg Prod.fst h).symm
    have h2 : e2 = rawEnd + (fixedStart - rawStart) := (congrArg Prod.snd h).symm
    subst h1
    omega

theorem claim_C7_witness :
    calendarBranchTimes 0 345600000 (some 349200000) "reunión 2026"
        = some (345600000, 349200000) ∧
    ¬ (345600000 : Int) < 0 ∧
    (349200000 : Int) = 345600000 + (345600000 - 345600000) + 3600000 ∧
    (349200000 : Int) - 345600000 = 349200000 - 345600000 := by
  have hyr : yearRe "reunión 2026" = true := by decide
  have hnorm : normalizeToFuture 0 (some 345600000) "reunión 2026" = some 345600000 := by
    unfold normalizeToFuture
    dsimp only
    rw [hyr, if_pos rfl]
    rw [if_neg (by decide : ¬(345600000 : Int) ≤ 0)]
  have heval : calendarBranchTimes 0 345600000 (some 349200000) "reunión 2026"
      = some (345600000, 349200000) := by
    unfold calendarBranchTimes
    rw [hnorm]
    simp only [Option.map_some']
    unfold createCalendarEventTimes
    rw [if_neg (by decide : ¬(345600000 : Int) < 0)]
    simp only [Option.getD_some]
    norm_num
  have h := claim_C7_end_shifted_duration_preserved 0 345600000 349200000 "reunión 2026"
    345600000 349200000 heval
  exact ⟨heval, h.1, by omega, by omega⟩

/-! ## Claim C8 -/

/-- C8: when the calendar collaborator's list call throws, the digest never
raises (it is a total function of the collaborator outcome): its events
section is exactly the fixed unavailability placeholder, and the
local-reminders section is still rendered from the store. -/
theorem claim_C8_digest_calendar_failure (fmtWhen fmtTime : Int → String)
    (identity : String) (now : Int) (rems : List Reminder) :
    getDayDigest fmtWhen fmtTime (Except.error ()) identity now rems
      = "RESUMEN DEL DÍA\n\nEventos próximas 24h:\n" ++ "(No se pudo leer Calendar)"
        ++ "\n\nRecordatorios locales:\n" ++ remsSection fmtTime identity now rems := by
  unfold getDayDigest
  dsimp only

/-! ## Claim C10 -/

/-- C10: an inbound (non-digest-command) message classified `local_reminder`
with a non-empty `startISO` matches neither the calendar branch (wrong intent)
nor the reminder branch (non-empty start): the store's reminder list is
unchanged and the request falls through to the general-chat reply. -/
theorem claim_C10_reminder_with_start_falls_through (classify : String → Intent)
    (nowMs : Int) (sender body : String) (db : DB)
    (hres : resumenRe body = false)
    (hint : (classify body).intent = "local_reminder")
    (hstart : (classify body).startISO ≠ "") :
    ((webhookStep classify nowMs sender body db).1).reminders = db.reminders ∧
    (webhookStep classify nowMs sender body db).2 = WebhookBranch.chat := by
  unfold webhookStep
  dsimp only
  rw [hres, if_neg (by simp)]
  rw [if_neg (by rintro ⟨h1, _⟩; rw [hint] at h1; exact absurd h1 (by decide))]
  rw [if_neg (by rintro ⟨_, h2⟩; exact hstart h2)]
  exact ⟨rfl, rfl⟩

theorem claim_C10_witness :
    resumenRe "hola" = false ∧
    ((webhookStep (fun _ => ⟨"local_reminder", "x", "", "2026-01-01T10:00:00Z", "", []⟩)
        1000 "u1" "hola" ⟨[], []⟩).1).reminders = ([] : List Reminder) ∧
    (webhookStep (fun _ => ⟨"local_reminder", "x", "", "2026-01-01T10:00:00Z", "", []⟩)
        1000 "u1" "hola" ⟨[], []⟩).2 = WebhookBranch.chat := by
  have h := claim_C10_reminder_with_start_falls_through
    (fun _ => ⟨"local_reminder", "x", "", "2026-01-01T10:00:00Z", "", []⟩)
    1000 "u1" "hola" ⟨[], []⟩ (by decide) (by decide) (by decide)
  exact ⟨by decide, h.1, h.2⟩

/-! ## Claim C2 -/

/-- C2: in a dispatcher sweep, a reminder whose delivery fails is nevertheless
marked `done` (in `server.js` the Twilio error is swallowed inside
`sendDirectWA`, so the dispatcher's own `catch` never fires; in `part_000` the
`r.done = true` sits after the per-reminder `catch`), it can never be selected
by a later sweep, and the failure does not prevent the other due reminders of
the batch from being delivered, marked `done`, and persisted. -/
theorem claim_C2_failed_delivery_still_done (ok : String → String → Bool) (now : Int)
    (rs : List Reminder) (r : Reminder)
    (hmem : r ∈ rs) (hdue : isDue now r = true)
    (_hfail : ok r.identity (reminderMsg r) = false) :
    { r with done := true } ∈ (dispatcherTick ok now rs).reminders ∧
    (∀ now1, isDue now1 { r with done := true } = false) ∧
    (∀ r1, r1 ∈ rs → isDue now r1 = true → ok r1.identity (reminderMsg r1) = true →
      (r1.identity, reminderMsg r1) ∈ (dispatcherTick ok now rs).sent ∧
      { r1 with done := true } ∈ (dispatcherTick ok now rs).reminders) ∧
    (dispatcherTick ok now rs).saved = true := by
  unfold dispatcherTick
  dsimp only
  refine ⟨?_, ?_, ?_, ?_⟩
  · exact List.mem_map.mpr ⟨r, hmem, by rw [if_pos hdue]⟩
  · intro now1
    simp [isDue]
  · intro r1 h1 h2 h3
    constructor
    · refine List.mem_map.mpr ⟨r1, ?_, rfl⟩
      refine List.mem_filter.mpr ⟨List.mem_filter.mpr ⟨h1, h2⟩, ?_⟩
      simp [sendDirectWA, h3]
    · exact List.mem_map.mpr ⟨r1, h1, by rw [if_pos h2]⟩
  · have hmemf : r ∈ rs.filter (isDue now) := List.mem_filter.mpr ⟨hmem, hdue⟩
    have hlen := List.length_pos_of_mem hmemf
    simp only [bne_iff_ne, ne_eq]
    omega

theorem claim_C2_witness :
    ((⟨"r_5", "u1", "pan", 5, false⟩ : Reminder) ∈
      [(⟨"r_5", "u1", "pan", 5, false⟩ : Reminder), ⟨"r_5", "u2", "leche", 5, false⟩]) ∧
    isDue 10 (⟨"r_5", "u1", "pan", 5, false⟩ : Reminder) = true ∧
    (fun toWa _ => toWa != "u1") "u1" (reminderMsg ⟨"r_5", "u1", "pan", 5, false⟩) = false ∧
    ({ (⟨"r_5", "u1", "pan", 5, false⟩ : Reminder) with done := true } ∈
      (dispatcherTick (fun toWa _ => toWa != "u1") 10
        [⟨"r_5", "u1", "pan", 5, false⟩, ⟨"r_5", "u2", "leche", 5, false⟩]).reminders) ∧
    (("u2", reminderMsg ⟨"r_5", "u2", "leche", 5, false⟩) ∈
      (dispatcherTick (fun toWa _ => toWa != "u1") 10
        [⟨"r_5", "u1", "pan", 5, false⟩, ⟨"r_5", "u2", "leche", 5, false⟩]).sent) ∧
    (dispatcherTick (fun toWa _ => toWa != "u1") 10
      [⟨"r_5", "u1", "pan", 5, false⟩, ⟨"r_5", "u2", "leche", 5, false⟩]).saved = true := by
  have h := claim_C2_failed_delivery_still_done (fun toWa _ => toWa != "u1") 10
    [⟨"r_5", "u1", "pan", 5, false⟩, ⟨"r_5", "u2", "leche", 5, false⟩]
    ⟨"r_5", "u1", "pan", 5, false⟩ (by decide) (by decide) (by decide)
  refine ⟨by decide, by decide, by decide, h.1, ?_, h.2.2.2⟩
  exact (h.2.2.1 ⟨"r_5", "u2", "leche", 5, false⟩ (by decide) (by decide) (by decide)).1

/-! ## Claim C3 -/

/-- C3: lifecycle of a reminder created by the add operation.  Ticks strictly
before `dueAt` select nothing for it and leave it pending; a tick at or after
`dueAt` whose delivery succeeds emits its notification (exactly one entry when
the reminder is unique for its owner and text), and marks it `done`; a `done`
reminder is never due again and is preserved unchanged by every later tick. -/
theorem claim_C3_reminder_lifecycle (sender txt : String) (t : Int)
    (ok : String → String → Bool) (rs : List Reminder)
    (hmem : mkLocalReminder sender txt t ∈ rs) :
    (∀ now1, now1 < t + 30 * 60 * 1000 →
      isDue now1 (mkLocalReminder sender txt t) = false ∧
      mkLocalReminder sender txt t ∈ (dispatcherTick ok now1 rs).reminders) ∧
    (∀ now2, t + 30 * 60 * 1000 ≤ now2 →
      ok sender (reminderMsg (mkLocalReminder sender txt t)) = true →
      ((sender, reminderMsg (mkLocalReminder sender txt t))
          ∈ (dispatcherTick ok now2 rs).sent) ∧
      ({ mkLocalReminder sender txt t with done := true }
          ∈ (dispatcherTick ok now2 rs).reminders) ∧
      (rs.count (mkLocalReminder sender txt t) = 1 →
        (∀ x ∈ rs, x.identity = sender → x.text = txt → x = mkLocalReminder sender txt t) →
        (dispatcherTick ok now2 rs).sent.count
          (sender, reminderMsg (mkLocalReminder sender txt t)) = 1)) ∧
    (∀ now3, isDue now3 { mkLocalReminder sender txt t with done := true } = false) ∧
    (∀ now3 rs3, { mkLocalReminder sender txt t with done := true } ∈ rs3 →
      { mkLocalReminder sender txt t with done := true }
          ∈ (dispatcherTick ok now3 rs3).reminders) := by
  refine ⟨?_, ?_, ?_, ?_⟩
  · intro now1 h1
    have hdue : isDue now1 (mkLocalReminder sender txt t) = false := by
      simp only [isDue, mkLocalReminder, Bool.not_false, Bool.true_and,
        decide_eq_false_iff_not]
      omega
    refine ⟨hdue, ?_⟩
    unfold dispatcherTick
    dsimp only
    exact List.mem_map.mpr ⟨mkLocalReminder sender txt t, hmem, by rw [if_neg (by simp [hdue])]⟩
  · intro now2 h2 hok
    have hdue : isDue now2 (mkLocalReminder sender txt t) = true := by
      simp only [isDue, mkLocalReminder, Bool.not_false, Bool.true_and, decide_eq_true_eq]
      omega
    refine ⟨?_, ?_, ?_⟩
    · unfold dispatcherTick
      dsimp only
      refine List.mem_map.mpr ⟨mkLocalReminder sender txt t,
        List.mem_filter.mpr ⟨List.mem_filter.mpr ⟨hmem, hdue⟩, ?_⟩, rfl⟩
      simp only [sendDirectWA]
      simp only [show (mkLocalReminder sender txt t).identity = sender from rfl, hok]
      simp
    · unfold dispatcherTick
      dsimp only
      exact List.mem_map.mpr ⟨mkLocalReminder sender txt t, hmem, by rw [if_pos hdue]⟩
    · intro hcount huniq
      unfold dispatcherTick
      dsimp only
      rw [List.count, List.countP_map, List.countP_filter, List.countP_filter]
      rw [List.countP_congr (q := fun x => x == mkLocalReminder sender txt t) ?_]
      · rw [List.count] at hcount
        exact hcount
      · intro x hx
        constructor
        · intro hp
          simp only [Function.comp, Bool.and_eq_true, beq_iff_eq, Prod.mk.injEq] at hp
          obtain ⟨⟨⟨hid, hmsg⟩, _⟩, _⟩ := hp
          have htxt : x.text = txt := reminderMsg_inj x (mkLocalReminder sender txt t) hmsg
          simp only [beq_iff_eq]
          exact huniq x hx hid htxt
        · intro hp
          simp only [beq_iff_eq] at hp
          subst hp
          simp [Function.comp, sendDirectWA, hdue]
          exact ⟨rfl, hok⟩
  · intro now3
    simp [isDue]
  · intro now3 rs3 hmem3
    unfold dispatcherTick
    dsimp only
    exact List.mem_map.mpr ⟨_, hmem3, by rw [if_neg (by simp [isDue])]⟩

theorem claim_C3_witness :
    (mkLocalReminder "u1" "pan" 0 ∈ [mkLocalReminder "u1" "pan" 0]) ∧
    isDue 0 (mkLocalReminder "u1" "pan" 0) = false ∧
    (mkLocalReminder "u1" "pan" 0 ∈
      (dispatcherTick (fun _ _ => true) 0 [mkLocalReminder "u1" "pan" 0]).reminders) ∧
    (("u1", reminderMsg (mkLocalReminder "u1" "pan" 0)) ∈
      (dispatcherTick (fun _ _ => true) 1800000 [mkLocalReminder "u1" "pan" 0]).sent) ∧
    ({ mkLocalReminder "u1" "pan" 0 with done := true } ∈
      (dispatcherTick (fun _ _ => true) 1800000 [mkLocalReminder "u1" "pan" 0]).reminders) ∧
    (dispatcherTick (fun _ _ => true) 1800000 [mkLocalReminder "u1" "pan" 0]).sent.count
      ("u1", reminderMsg (mkLocalReminder "u1" "pan" 0)) = 1 ∧
    isDue 1800001 { mkLocalReminder "u1" "pan" 0 with done := true } = false := by
  have h := claim_C3_reminder_lifecycle "u1" "pan" 0 (fun _ _ => true)
    [mkLocalReminder "u1" "pan" 0] (by decide)
  refine ⟨by decide, (h.1 0 (by decide)).1, (h.1 0 (by decide)).2, ?_, ?_, ?_,
    h.2.2.1 1800001⟩
  · exact (h.2.1 1800000 (by decide) (by decide)).1
  · exact (h.2.1 1800000 (by decide) (by decide)).2.1
  · exact (h.2.1 1800000 (by decide) (by decide)).2.2 (by decide) (by decide)

/-! ## Claim C9 -/

/-- C9 as stated is false: ids are `` `r_${Date.now()}` ``, so two adds in the
same millisecond (here from different senders with different texts) produce two
distinct reminders with the SAME id. -/
theorem claim_C9_counterexample :
    mkLocalReminder "u1" "comprar pan" 1700000000000
        ≠ mkLocalReminder "u2" "llamar" 1700000000000 ∧
    (mkLocalReminder "u1" "comprar pan" 1700000000000).id
        = (mkLocalReminder "u2" "llamar" 1700000000000).id := by
  exact ⟨by decide, rfl⟩

/-- C9 amended: reminder ids are unique only across distinct generation
instants — two adds at distinct (nonnegative epoch) instants always get
distinct ids, while two adds in the same millisecond collide. -/
theorem claim_C9_ids_distinct_across_instants (s1 s2 x1 x2 : String) (t1 t2 : Int)
    (h1 : 0 ≤ t1) (h2 : 0 ≤ t2) (hne : t1 ≠ t2) :
    (mkLocalReminder s1 x1 t1).id ≠ (mkLocalReminder s2 x2 t2).id := by
  intro heq
  apply hne
  apply intToString_nonneg_inj t1 t2 h1 h2
  have heq2 : "r_" ++ toString t1 = "r_" ++ toString t2 := heq
  have hd := congrArg String.data heq2
  simp only [String.data_append] at hd
  exact String.ext (List.append_cancel_left hd)

theorem claim_C9_witness :
    (0 : Int) ≤ 1000 ∧ (0 : Int) ≤ 2000 ∧ (1000 : Int) ≠ 2000 ∧
    (mkLocalReminder "u1" "a" 1000).id ≠ (mkLocalReminder "u1" "a" 2000).id :=
  ⟨by decide, by decide, by decide,
    claim_C9_ids_distinct_across_instants "u1" "u1" "a" "a" 1000 2000
      (by decide) (by decide) (by decide)⟩

end Macla
